import Mathlib

/-!
Shallow embedding of the access-control and lifecycle engine of the
file-sharing server (`app.py`, `models.py`).

The server state is the pair of the upload directory (a list of
`(filename, content)` blobs, in directory-iteration order) and the
metadata table (a list of `FileRecord` rows).  Each Flask route that the
claims touch is embedded as a pure function from its request inputs and
the current state to a response and the next state.  Nondeterministic
environment inputs (current time, `secrets` tokens) are passed as
explicit parameters.  External library functions (`werkzeug`'s
`secure_filename`, password hashing) are modelled by small documented
functions; everything else is translated line by line from the source.
-/

/-! ## String helpers mirroring the Python string operations used -/

/-- Index of the last occurrence of `c` in `l`, if any. -/
def lastIdxOf (c : Char) : List Char → Option Nat
  | [] => none
  | x :: xs =>
    match lastIdxOf c xs with
    | some i => some (i + 1)
    | none => if x == c then some 0 else none

/-- Python `s.rsplit(sep, 1)` when `sep` occurs in `s`: the parts before and
after the last occurrence of `sep`.  `none` when `sep` does not occur. -/
def rsplitLast (sep : Char) (s : String) : Option (String × String) :=
  match lastIdxOf sep s.data with
  | none => none
  | some i => some (String.mk (s.data.take i), String.mk (s.data.drop (i + 1)))

/-- Python `s.rsplit('.', 1)[1]` under the guard `'.' in s`: the substring
after the last dot (returns `s` itself when there is no dot, a case the
caller `allowed_file` rules out first). -/
def extAfterLastDot (s : String) : String :=
  match lastIdxOf '.' s.data with
  | none => s
  | some i => String.mk (s.data.drop (i + 1))

/-- Python `s.split('.', 1)[1]`: the substring after the first dot, if a dot
occurs. -/
def afterFirstDot (s : String) : Option String :=
  match s.data.findIdx? (fun c => c == '.') with
  | none => none
  | some i => some (String.mk (s.data.drop (i + 1)))

/-- Python `str.isdigit` on ASCII strings: nonempty and all digits. -/
def pyIsdigit (s : String) : Bool :=
  !(s == "") && s.data.all Char.isDigit

/-- Python `str.lower` (ASCII). -/
def pyLower (s : String) : String := String.mk (s.data.map Char.toLower)

/-- Numeric value of an all-digit string, as Python `int(s)`. -/
def digitsToNat (s : String) : Nat :=
  s.data.foldl (fun n c => n * 10 + (c.toNat - '0'.toNat)) 0

def wsChar (c : Char) : Bool := c == ' ' || c == '\t' || c == '\n' || c == '\r'

/-- Helper for `pyWsSplit`: collect maximal non-whitespace runs. -/
def wsWords : List Char → List Char → List (List Char)
  | [], acc => if acc.isEmpty then [] else [acc.reverse]
  | c :: cs, acc =>
    if wsChar c then
      if acc.isEmpty then wsWords cs [] else acc.reverse :: wsWords cs []
    else wsWords cs (c :: acc)

/-- Python `s.split()` (no argument): split on whitespace runs, dropping
empty pieces. -/
def pyWsSplit (s : String) : List String :=
  (wsWords s.data []).map String.mk

/-- Python `s.strip()`: drop leading and trailing whitespace. -/
def pyStrip (s : String) : String :=
  String.mk (((s.data.dropWhile wsChar).reverse.dropWhile wsChar).reverse)

/-- Python `s.strip("._")` on a character list: drop leading and trailing
characters that are `'.'` or `'_'`. -/
def stripDotUnderscore (l : List Char) : List Char :=
  let p : Char → Bool := fun c => c == '.' || c == '_'
  ((l.dropWhile p).reverse.dropWhile p).reverse

/-- Model of the external `werkzeug.utils.secure_filename` for ASCII input:
whitespace runs are joined with `'_'`, characters outside
`[A-Za-z0-9_.-]` are dropped, and leading and trailing `'.'`/`'_'` are
stripped.  (The unicode normalisation and Windows reserved-name handling
of the real function are out of scope: no claim exercises them.) -/
def secure_filename (n : String) : String :=
  let joined := String.intercalate "_" (pyWsSplit n)
  let kept := joined.data.filter (fun c => c.isAlphanum || c == '.' || c == '_' || c == '-')
  String.mk (stripDotUnderscore kept)

/-- Models `os.path.splitext` on a bare filename (no path separators): split at the
last dot, provided some earlier character of the name is not a dot
(so `".bashrc"` has no extension). -/
def splitext (s : String) : String × String :=
  match lastIdxOf '.' s.data with
  | none => (s, "")
  | some i =>
    if (s.data.take i).any (fun c => !(c == '.')) then
      (String.mk (s.data.take i), String.mk (s.data.drop i))
    else (s, "")

/-! ## Filename generator and display-name projection (`app.py` 210-214, 140-146) -/

/-- Stored-name derivation performed by `upload_files` (app.py 211-214):
`secure_filename`, split into stem and extension, and splice the
millisecond timestamp between them. -/
def deriveStoredName (displayName : String) (timestamp : Nat) : String :=
  let original := secure_filename displayName
  let se := splitext original
  se.1 ++ "_" ++ toString timestamp ++ se.2

/-- Display-name projection performed by `get_files` (app.py 140-146):
if the name contains `'_'`, rsplit at the last `'_'`; when the trailing
part with its dots removed is all digits, drop the `_<digits>` segment and
keep what follows the first dot of the trailing part (the extension);
otherwise return the stored name unchanged. -/
def displayNameFromStored (filename : String) : String :=
  match rsplitLast '_' filename with
  | none => filename
  | some (stem, rest) =>
    if pyIsdigit (String.mk (rest.data.filter (fun c => !(c == '.')))) then
      match afterFirstDot rest with
      | none => stem
      | some ext => stem ++ "." ++ ext
    else filename

/-! ## Upload extension filter (`app.py` 40, 48-50) -/

def ALLOWED_EXTENSIONS : List String :=
  ["jpg", "jpeg", "png", "gif", "pdf", "doc", "docx", "txt", "zip", "rar", "mp3", "mp4", "avi"]

def allowed_file (filename : String) : Bool :=
  filename.data.contains '.' && ALLOWED_EXTENSIONS.contains (pyLower (extAfterLastDot filename))

/-! ## Password hashing (model of the external werkzeug functions) -/

/-- Model of `werkzeug.security.generate_password_hash`: an injective tag of
the password.  (The real function salts and hashes; for the access-control
claims all that matters is that `check_password_hash h p` succeeds exactly
when `h` was generated from `p`.) -/
def generate_password_hash (p : String) : String := "pbkdf2:" ++ p

/-- Model of `werkzeug.security.check_password_hash`. -/
def check_password_hash (h p : String) : Bool := h == generate_password_hash p

/-! ## Data model (`models.py`) -/

/-- One row of the `File` table (`models.py` 5-22).  `upload_date`,
`download_count`, `created_by`, `original_name`, `file_size` and
`file_type` never influence any claimed behaviour and are kept only where
a claim's output mentions them. -/
structure FileRecord where
  filename : String
  isHidden : Bool := false
  hiddenToken : Option String := none
  viewLimit : Option Nat := none
  viewCount : Nat := 0
  passwordHash : Option String := none
  isPasswordProtected : Bool := false
  lastAccessed : Option Nat := none
deriving DecidableEq, Repr

/-- The shared mutable state: the `uploads` directory (blob store) and the
metadata table. -/
structure ServerState where
  blobs : List (String × String) := []
  records : List FileRecord := []
deriving DecidableEq, Repr

/-- Embeds `File.query.filter_by(filename=fn).first()`. -/
def findRecord (s : ServerState) (fn : String) : Option FileRecord :=
  s.records.find? (fun r => r.filename == fn)

/-- Blob lookup: `os.path.exists` plus the read `send_file` would perform. -/
def findBlob (s : ServerState) (fn : String) : Option String :=
  (s.blobs.find? (fun b => b.1 == fn)).map Prod.snd

/-- Mutating the ORM object returned by `.first()` and committing: replace
the first record with the given filename. -/
def updateFirstRec : List FileRecord → String → (FileRecord → FileRecord) → List FileRecord
  | [], _, _ => []
  | r :: rs, fn, f => if r.filename == fn then f r :: rs else r :: updateFirstRec rs fn f

/-- Embeds `db.session.delete` of the object returned by `.first()`: remove the
first record with the given filename. -/
def removeFirstRec : List FileRecord → String → List FileRecord
  | [], _ => []
  | r :: rs, fn => if r.filename == fn then rs else r :: removeFirstRec rs fn

/-- Embeds `os.remove`: directory names are unique, drop the entry. -/
def removeBlobL (bs : List (String × String)) (fn : String) : List (String × String) :=
  bs.filter (fun b => !(b.1 == fn))

/-- Embeds `file.save(filepath)`: overwrite an existing directory entry or append a
new one. -/
def setBlob (bs : List (String × String)) (fn c : String) : List (String × String) :=
  if bs.any (fun b => b.1 == fn) then
    bs.map (fun b => if b.1 == fn then (fn, c) else b)
  else bs ++ [(fn, c)]

/-- The record the auto-create branches of `toggle_file_hidden`,
`set_file_password` and `set_view_limit` construct (only `filename`,
`original_name`, `file_size`, `file_type` are passed; the access-control
columns take their `models.py` defaults). -/
def defaultRecord (fn : String) : FileRecord := { filename := fn }

/-! ## HTTP responses -/

inductive Resp where
  | ok (body : String)
  | redirectTo (location : String)
  | badRequest (msg : String)
  | unauthorized (msg : String)
  | forbidden (msg : String)
  | notFound
  | internalError
deriving DecidableEq, Repr

/-! ## Download (`app.py` 272-325) and the view-limit transition (84-97) -/

/-- The hidden-file gate of `download_file` (app.py 293-295) passes iff
`token` is truthy and equals `record.hidden_token`
(`if not token or token != file_record.hidden_token`). -/
def tokenMatches (r : FileRecord) (token : Option String) : Bool :=
  match token with
  | none => false
  | some t => !(t == "") && (r.hiddenToken == some t)

inductive PwOutcome where
  | pass
  | required
  | invalid
  | error
deriving DecidableEq, Repr

/-- The password gate of `download_file` (app.py 298-302).  A protected
record with a null `password_hash` makes `check_password_hash` raise,
which the route's `except` turns into a 500 (`error`). -/
def passwordCheck (r : FileRecord) (pw : Option String) : PwOutcome :=
  if !r.isPasswordProtected then .pass
  else
    match pw with
    | none => .required
    | some p =>
      if p == "" then .required
      else
        match r.passwordHash with
        | none => .error
        | some h => if check_password_hash h p then .pass else .invalid

/-- Embeds `check_view_limit_and_delete` (app.py 84-97): when `view_limit` is
truthy (non-null and nonzero) and `view_count` has reached it, remove the
blob (if present) and the record, returning `true`. -/
def check_view_limit_and_delete (r : FileRecord) (s : ServerState) : Bool × ServerState :=
  match r.viewLimit with
  | some l =>
    if !(l == 0) && decide (l ≤ r.viewCount) then
      (true, { blobs := removeBlobL s.blobs r.filename,
               records := removeFirstRec s.records r.filename })
    else (false, s)
  | none => (false, s)

/-- Embeds `download_file` (app.py 272-325).  Notes on the exception paths, all
forced by the `try ... except Exception` wrapping the whole body:
`abort(404)` raises an `HTTPException`, which IS an `Exception`, so a
missing blob ends in `abort(500)`; and when
`check_view_limit_and_delete` has already run `os.remove`, the final
`send_file(filepath)` raises `FileNotFoundError`, so the limit-triggering
caller also receives a 500 — after the blob and record are already gone. -/
def download_file (fn : String) (token pw : Option String) (now : Nat)
    (s : ServerState) : Resp × ServerState :=
  let r? := findRecord s fn
  match findBlob s fn with
  | none => (.internalError, s)
  | some content =>
    match r? with
    | none => (.ok content, s)
    | some r =>
      if r.isHidden && !(tokenMatches r token) then
        (.forbidden "Invalid or missing access token", s)
      else
        match passwordCheck r pw with
        | .required => (.unauthorized "Password required", s)
        | .invalid => (.unauthorized "Invalid password", s)
        | .error => (.internalError, s)
        | .pass =>
          let r' := { r with viewCount := r.viewCount + 1, lastAccessed := some now }
          let s1 : ServerState := { s with records := updateFirstRec s.records fn (fun _ => r') }
          let res := check_view_limit_and_delete r' s1
          if res.1 then (.internalError, res.2) else (.ok content, res.2)

/-! ## Upload (`app.py` 188-270) -/

/-- Python truthiness of an optional form string (`None` and `""` falsy). -/
def pyTruthy : Option String → Bool
  | none => false
  | some p => !(p == "")

/-- The `view_limit` column computed at upload
(`int(view_limit) if view_limit and view_limit.isdigit() else None`). -/
def parseViewLimit : Option String → Option Nat
  | none => none
  | some v => if !(v == "") && pyIsdigit v then some (digitsToNat v) else none

/-- The record `upload_files` inserts for one accepted file (app.py 227-237). -/
def newUploadRecord (stored : String) (isHidden : Bool)
    (viewLimitStr password : Option String) (freshTok : String) : FileRecord :=
  { filename := stored,
    isHidden := isHidden,
    hiddenToken := if isHidden then some freshTok else none,
    viewLimit := parseViewLimit viewLimitStr,
    passwordHash :=
      match password with
      | some p => if !(p == "") then some (generate_password_hash p) else none
      | none => none,
    isPasswordProtected := pyTruthy password }

/-- The `for file in files` loop of `upload_files` (app.py 208-257): each
file with a truthy name passing `allowed_file` is saved under its derived
stored name and gets a record appended; others are skipped.  `ts i` and
`tok i` are the timestamp and hidden token the environment supplies for
the `i`-th accepted file.  Returns the stored names of the accepted files
and the final state. -/
def uploadLoop (isHidden : Bool) (viewLimitStr password : Option String)
    (ts : Nat → Nat) (tok : Nat → String) :
    List (String × String) → Nat → ServerState → List String × ServerState
  | [], _, s => ([], s)
  | (fname, content) :: rest, i, s =>
    if !(fname == "") && allowed_file fname then
      let stored := deriveStoredName fname (ts i)
      let s' : ServerState :=
        { blobs := setBlob s.blobs stored content,
          records := s.records ++ [newUploadRecord stored isHidden viewLimitStr password (tok i)] }
      let res := uploadLoop isHidden viewLimitStr password ts tok rest (i + 1) s'
      (stored :: res.1, res.2)
    else uploadLoop isHidden viewLimitStr password ts tok rest i s

/-- Embeds `upload_files` (app.py 188-270).  `files` models
`request.files.getlist('files')` as `(filename, content)` pairs (the
`'files' not in request.files` 400 is the degenerate missing-field case,
outside every claim). -/
def upload_files (files : List (String × String)) (isHidden : Bool)
    (viewLimitStr password : Option String) (ts : Nat → Nat) (tok : Nat → String)
    (s : ServerState) : Resp × ServerState :=
  if files.isEmpty || files.all (fun f => f.1 == "") then
    (.badRequest "No files selected", s)
  else
    let res := uploadLoop isHidden viewLimitStr password ts tok files 0 s
    if res.1.isEmpty then (.badRequest "No valid files uploaded", res.2)
    else (.ok (toString res.1.length ++ " file(s) uploaded successfully."), res.2)

/-! ## Listing (`app.py` 117-186) -/

/-- One element of the `/api/files` JSON array.  `hiddenToken := none`
covers both an absent key (no record) and an explicit `null` (non-admin
caller); `type`, `created` and `modified` are filesystem metadata outside
the model. -/
structure ListingEntry where
  name : String
  originalName : String
  size : Nat
  isHidden : Bool
  hiddenToken : Option String
  isPasswordProtected : Bool
  viewCount : Nat
  viewLimit : Option Nat
  lastAccessed : Option Nat
deriving DecidableEq, Repr

inductive ListResult where
  | forbidden
  | entries (l : List ListingEntry)
deriving DecidableEq, Repr

/-- The `file_data` defaults of `get_files` (app.py 148-159), including the
display-name projection of lines 140-146. -/
def baseEntry (b : String × String) : ListingEntry :=
  { name := b.1, originalName := displayNameFromStored b.1, size := b.2.length,
    isHidden := false, hiddenToken := none, isPasswordProtected := false,
    viewCount := 0, viewLimit := none, lastAccessed := none }

/-- The body of the directory loop of `get_files` (app.py 133-181) for one
entry: skip `.gitkeep`; join with the metadata record when one exists
(`hiddenToken` only for admins, app.py 168); skip records that are hidden
when the caller is neither admin nor an (already admin-checked)
`hidden=true` requester (app.py 176-177). -/
def entryFor (s : ServerState) (b : String × String) (isAdmin showHidden : Bool) :
    Option ListingEntry :=
  if b.1 == ".gitkeep" then none
  else
    match findRecord s b.1 with
    | none => some (baseEntry b)
    | some r =>
      if r.isHidden && !isAdmin && !showHidden then none
      else
        some { baseEntry b with
               isHidden := r.isHidden,
               hiddenToken := if isAdmin then r.hiddenToken else none,
               isPasswordProtected := r.isPasswordProtected,
               viewCount := r.viewCount,
               viewLimit := r.viewLimit,
               lastAccessed := r.lastAccessed }

/-- Embeds `get_files` (app.py 117-186): requesting `hidden=true` without admin is
rejected; otherwise the directory is projected entry by entry. -/
def get_files (showHidden isAdmin : Bool) (s : ServerState) : ListResult :=
  if showHidden && !isAdmin then .forbidden
  else .entries (s.blobs.filterMap (fun b => entryFor s b isAdmin showHidden))

/-! ## Mutation routes (`app.py` 394-550) -/

/-- The flip at app.py 417-421: negate `is_hidden`; generate a token when
newly hidden and the token is falsy, clear it when un-hidden. -/
def toggledRec (r : FileRecord) (freshTok : String) : FileRecord :=
  let h := !r.isHidden
  { r with isHidden := h,
           hiddenToken :=
             if h then
               match r.hiddenToken with
               | none => some freshTok
               | some t => if t == "" then some freshTok else some t
             else none }

/-- Embeds `toggle_file_hidden` (app.py 394-435), auto-creating a default record
when the file exists on disk without one. -/
def toggle_file_hidden (fn : String) (freshTok : String) (s : ServerState) :
    Resp × ServerState :=
  match findRecord s fn with
  | some r =>
    let r' := toggledRec r freshTok
    (.ok (if r'.isHidden then "File hidden" else "File made public"),
     { s with records := updateFirstRec s.records fn (fun _ => r') })
  | none =>
    match findBlob s fn with
    | none => (.notFound, s)
    | some _ =>
      let r' := toggledRec (defaultRecord fn) freshTok
      (.ok (if r'.isHidden then "File hidden" else "File made public"),
       { s with records := s.records ++ [r'] })

/-- The assignment at app.py 463-470. -/
def withPassword (p : String) (r : FileRecord) : FileRecord :=
  if !(p == "") then
    { r with passwordHash := some (generate_password_hash p), isPasswordProtected := true }
  else
    { r with passwordHash := none, isPasswordProtected := false }

/-- Embeds `set_file_password` (app.py 437-482).  `password = none` models JSON
`null`: `data.get('password', '').strip()` then raises `AttributeError`
before any database work, and the route answers 500 with the session
rolled back. -/
def set_file_password (fn : String) (password : Option String) (s : ServerState) :
    Resp × ServerState :=
  match password with
  | none => (.internalError, s)
  | some p0 =>
    let p := pyStrip p0
    match findRecord s fn with
    | some _ =>
      (.ok (if !(p == "") then "Password set successfully" else "Password removed successfully"),
       { s with records := updateFirstRec s.records fn (withPassword p) })
    | none =>
      match findBlob s fn with
      | none => (.notFound, s)
      | some _ =>
        (.ok (if !(p == "") then "Password set successfully" else "Password removed successfully"),
         { s with records := s.records ++ [withPassword p (defaultRecord fn)] })

/-- Embeds `set_view_limit` (app.py 484-525).  `viewLimit` models the JSON field:
`none` is `null` (clear the limit), a negative integer is rejected with
400; `0` passes the `view_limit < 0` validation and is stored. -/
def set_view_limit (fn : String) (viewLimit : Option Int) (s : ServerState) :
    Resp × ServerState :=
  let invalid := match viewLimit with
    | some v => decide (v < 0)
    | none => false
  if invalid then (.badRequest "View limit must be a positive integer or null", s)
  else
    let vl : Option Nat := match viewLimit with
      | some v => some v.toNat
      | none => none
    match findRecord s fn with
    | some _ =>
      (.ok "View limit updated",
       { s with records := updateFirstRec s.records fn (fun r => { r with viewLimit := vl }) })
    | none =>
      match findBlob s fn with
      | none => (.notFound, s)
      | some _ =>
        (.ok "View limit updated",
         { s with records := s.records ++ [{ defaultRecord fn with viewLimit := vl }] })

/-- Embeds `reset_view_count` (app.py 527-550): requires an existing record. -/
def reset_view_count (fn : String) (s : ServerState) : Resp × ServerState :=
  match findRecord s fn with
  | none => (.notFound, s)
  | some _ =>
    (.ok "View count reset successfully",
     { s with records := updateFirstRec s.records fn (fun r => { r with viewCount := 0 }) })

/-! ## Hidden link resolution (`app.py` 582-597) -/

/-- Embeds `hidden_file_access` (app.py 582-597).  Two slips shape every branch:
`redirect` is absent from the `flask` import list (app.py line 9), so
reaching line 593 raises `NameError`; and `abort(404)` raises an
`HTTPException`, an `Exception`.  Both are caught by the route's
`except Exception`, which answers `abort(500)`.  The intended response of
the redirect branch was
`.redirectTo ("/api/download/" ++ r.filename ++ "?token=" ++ token)`. -/
def hidden_file_access (token : String) (s : ServerState) : Resp × ServerState :=
  match s.records.find? (fun r => r.hiddenToken == some token) with
  | none => (.internalError, s)
  | some r =>
    if r.isHidden then (.internalError, s)
    else (.internalError, s)

/-! ## Operations and the record invariant (claim C6) -/

/-- The state-mutating operations named by the invariant claim. -/
inductive Op where
  | upload (files : List (String × String)) (isHidden : Bool)
      (viewLimitStr password : Option String) (ts : Nat → Nat) (tok : Nat → String)
  | toggleHidden (fn : String) (freshTok : String)
  | setPassword (fn : String) (password : Option String)
  | setViewLimit (fn : String) (viewLimit : Option Int)
  | resetViews (fn : String)
  | download (fn : String) (token pw : Option String) (now : Nat)

/-- The state transition of each operation (the response is discarded). -/
def applyOp : Op → ServerState → ServerState
  | .upload files h vls pw ts tok, s => (upload_files files h vls pw ts tok s).2
  | .toggleHidden fn tk, s => (toggle_file_hidden fn tk s).2
  | .setPassword fn pw, s => (set_file_password fn pw s).2
  | .setViewLimit fn vl, s => (set_view_limit fn vl s).2
  | .resetViews fn, s => (reset_view_count fn s).2
  | .download fn token pw now, s => (download_file fn token pw now s).2

/-- The §3 record invariant: `isHidden` iff the token is present,
`isPasswordProtected` iff the hash is present. -/
def recInv (r : FileRecord) : Prop :=
  (r.isHidden = true ↔ r.hiddenToken ≠ none) ∧
  (r.isPasswordProtected = true ↔ r.passwordHash ≠ none)

/-- The invariant holds of every row of the metadata table. -/
def stateInv (s : ServerState) : Prop :=
  ∀ r ∈ s.records, recInv r

/-! ## Shared lemmas about the state helpers -/

theorem findRecord_filename {s : ServerState} {fn : String} {r : FileRecord}
    (h : findRecord s fn = some r) : r.filename = fn := by
  simp only [findRecord] at h
  simpa using List.find?_some h

theorem findRecord_mem {s : ServerState} {fn : String} {r : FileRecord}
    (h : findRecord s fn = some r) : r ∈ s.records := by
  simp only [findRecord] at h
  exact List.mem_of_find?_eq_some h

theorem mem_updateFirstRec {l : List FileRecord} {fn : String} {f : FileRecord → FileRecord}
    {a : FileRecord} (h : a ∈ updateFirstRec l fn f) : a ∈ l ∨ ∃ b, b ∈ l ∧ a = f b := by
  induction l with
  | nil => simp [updateFirstRec] at h
  | cons x xs ih =>
    by_cases hx : x.filename == fn
    · simp only [updateFirstRec, hx, if_pos, List.mem_cons] at h
      rcases h with h | h
      · exact Or.inr ⟨x, List.mem_cons_self x xs, h⟩
      · exact Or.inl (List.mem_cons_of_mem x h)
    · simp only [updateFirstRec, hx, if_neg, Bool.false_eq_true, not_false_iff,
        List.mem_cons] at h
      rcases h with h | h
      · exact Or.inl (h ▸ List.mem_cons_self x xs)
      · rcases ih h with h' | ⟨b, hb, hab⟩
        · exact Or.inl (List.mem_cons_of_mem x h')
        · exact Or.inr ⟨b, List.mem_cons_of_mem x hb, hab⟩

theorem mem_removeFirstRec {l : List FileRecord} {fn : String} {a : FileRecord}
    (h : a ∈ removeFirstRec l fn) : a ∈ l := by
  induction l with
  | nil => simp [removeFirstRec] at h
  | cons x xs ih =>
    by_cases hx : x.filename == fn
    · simp only [removeFirstRec, hx, if_pos] at h
      exact List.mem_cons_of_mem x h
    · simp only [removeFirstRec, hx, if_neg, Bool.false_eq_true, not_false_iff,
        List.mem_cons] at h
      rcases h with h | h
      · exact h ▸ List.mem_cons_self x xs
      · exact List.mem_cons_of_mem x (ih h)

theorem updateFirstRec_find?_self {l : List FileRecord} {fn : String}
    {f : FileRecord → FileRecord} {r : FileRecord}
    (hf : l.find? (fun x => x.filename == fn) = some r) (hname : (f r).filename = fn) :
    (updateFirstRec l fn f).find? (fun x => x.filename == fn) = some (f r) := by
  induction l with
  | nil => simp at hf
  | cons a as ih =>
    by_cases ha : a.filename == fn
    · simp only [List.find?_cons, ha] at hf
      obtain rfl : a = r := by simpa using hf
      simp only [updateFirstRec, ha, if_pos, List.find?_cons, hname, beq_self_eq_true]
    · simp only [List.find?_cons, ha] at hf
      simp only [updateFirstRec, ha, if_neg, Bool.false_eq_true, not_false_iff,
        List.find?_cons]
      exact ih hf

theorem updateFirstRec_map_filename {l : List FileRecord} {fn : String}
    {f : FileRecord → FileRecord} (h : ∀ x, x.filename = fn → (f x).filename = fn) :
    (updateFirstRec l fn f).map FileRecord.filename = l.map FileRecord.filename := by
  induction l with
  | nil => rfl
  | cons a as ih =>
    by_cases ha : a.filename == fn
    · have ha' : a.filename = fn := by simpa using ha
      simp [updateFirstRec, ha, h a ha', ha']
    · simp [updateFirstRec, ha, ih]

theorem nodup_updateFirstRec_names {l : List FileRecord} {fn : String}
    {f : FileRecord → FileRecord} (h : ∀ x, x.filename = fn → (f x).filename = fn)
    (hnd : (l.map FileRecord.filename).Nodup) :
    ((updateFirstRec l fn f).map FileRecord.filename).Nodup := by
  rw [updateFirstRec_map_filename h]
  exact hnd

theorem removeFirstRec_find?_none {l : List FileRecord} {fn : String}
    (hnd : (l.map FileRecord.filename).Nodup) :
    (removeFirstRec l fn).find? (fun x => x.filename == fn) = none := by
  induction l with
  | nil => rfl
  | cons a as ih =>
    rw [List.map_cons, List.nodup_cons] at hnd
    obtain ⟨hna, hnd'⟩ := hnd
    by_cases ha : a.filename == fn
    · have ha' : a.filename = fn := by simpa using ha
      simp only [removeFirstRec, ha, if_pos]
      rw [List.find?_eq_none]
      intro x hx hbe
      have hx' : x.filename = fn := by simpa using hbe
      exact hna (by rw [ha', ← hx']; exact List.mem_map_of_mem FileRecord.filename hx)
    · simp only [removeFirstRec, ha, if_neg, Bool.false_eq_true, not_false_iff,
        List.find?_cons]
      exact ih hnd'

theorem removeBlobL_find?_none (bs : List (String × String)) (fn : String) :
    (removeBlobL bs fn).find? (fun b => b.1 == fn) = none := by
  rw [List.find?_eq_none]
  intro b hb
  have := (List.mem_filter.mp hb).2
  simpa using this

/-! ## Record-invariant lemmas -/

theorem recInv_defaultRecord (fn : String) : recInv (defaultRecord fn) := by
  constructor <;> simp [defaultRecord]

theorem recInv_toggledRec {r : FileRecord} (h : recInv r) (tk : String) :
    recInv (toggledRec r tk) := by
  obtain ⟨_, hpw⟩ := h
  constructor
  · cases hr : r.isHidden <;> cases ht : r.hiddenToken <;>
      simp [toggledRec, hr, ht]
    split <;> simp
  · simpa [toggledRec] using hpw

theorem recInv_withPassword {r : FileRecord} (h : recInv r) (p : String) :
    recInv (withPassword p r) := by
  obtain ⟨hh, _⟩ := h
  unfold withPassword
  split
  · exact ⟨by simpa using hh, by simp⟩
  · exact ⟨by simpa using hh, by simp⟩

theorem recInv_newUploadRecord (stored : String) (isHidden : Bool)
    (vls password : Option String) (tk : String) :
    recInv (newUploadRecord stored isHidden vls password tk) := by
  constructor
  · cases isHidden <;> simp [newUploadRecord]
  · cases password with
    | none => simp [newUploadRecord, pyTruthy]
    | some p =>
      by_cases hp : p == ""
      · simp [newUploadRecord, pyTruthy, hp]
      · simp [newUploadRecord, pyTruthy, hp]

theorem recInv_setViewLimit {r : FileRecord} (h : recInv r) (vl : Option Nat) :
    recInv { r with viewLimit := vl } := by
  obtain ⟨hh, hpw⟩ := h
  exact ⟨by simpa using hh, by simpa using hpw⟩

theorem recInv_setViewCount {r : FileRecord} (h : recInv r) (n : Nat) :
    recInv { r with viewCount := n } := by
  obtain ⟨hh, hpw⟩ := h
  exact ⟨by simpa using hh, by simpa using hpw⟩

theorem recInv_touch {r : FileRecord} (h : recInv r) (n : Nat) (t : Option Nat) :
    recInv { r with viewCount := n, lastAccessed := t } := by
  obtain ⟨hh, hpw⟩ := h
  exact ⟨by simpa using hh, by simpa using hpw⟩

theorem inv_updateFirstRec {l : List FileRecord} {fn : String} {f : FileRecord → FileRecord}
    (hl : ∀ r ∈ l, recInv r) (hf : ∀ r ∈ l, recInv r → recInv (f r)) :
    ∀ r ∈ updateFirstRec l fn f, recInv r := by
  intro x hx
  rcases mem_updateFirstRec hx with hx' | ⟨b, hb, hxb⟩
  · exact hl x hx'
  · exact hxb ▸ hf b hb (hl b hb)

theorem inv_removeFirstRec {l : List FileRecord} {fn : String}
    (hl : ∀ r ∈ l, recInv r) : ∀ r ∈ removeFirstRec l fn, recInv r :=
  fun x hx => hl x (mem_removeFirstRec hx)

/-! ## Scrubbing lemmas for the token-non-leakage claim -/

/-- Erase the secret `hiddenToken` column of a record. -/
def scrubRec (r : FileRecord) : FileRecord := { r with hiddenToken := none }

/-- Erase every stored hidden token: two states differ only in their stored
hidden tokens exactly when their scrubs are equal. -/
def scrubTokens (s : ServerState) : ServerState :=
  { s with records := s.records.map scrubRec }

theorem findRecord_scrubTokens (s : ServerState) (fn : String) :
    findRecord (scrubTokens s) fn = (findRecord s fn).map scrubRec := by
  simp only [findRecord, scrubTokens]
  rw [List.find?_map]
  rfl

theorem filterMap_ext_mem {α β : Type} (l : List α) (f g : α → Option β)
    (h : ∀ a ∈ l, f a = g a) : l.filterMap f = l.filterMap g := by
  induction l with
  | nil => rfl
  | cons a as ih =>
    rw [List.filterMap_cons, List.filterMap_cons, h a (List.mem_cons_self a as),
      ih (fun x hx => h x (List.mem_cons_of_mem a hx))]

theorem entryFor_scrubTokens (s : ServerState) (b : String × String) (sh : Bool) :
    entryFor (scrubTokens s) b false sh = entryFor s b false sh := by
  simp only [entryFor, findRecord_scrubTokens]
  cases findRecord s b.1 with
  | none => rfl
  | some r => simp [scrubRec]

theorem get_files_scrubTokens (sh : Bool) (s : ServerState) :
    get_files sh false (scrubTokens s) = get_files sh false s := by
  simp only [get_files]
  split
  · rfl
  · have hb : (scrubTokens s).blobs = s.blobs := rfl
    rw [hb]
    exact congrArg ListResult.entries
      (filterMap_ext_mem _ _ _ (fun b _ => entryFor_scrubTokens s b sh))

theorem tokenMatches_iff {r : FileRecord} {tk : String} (h : r.hiddenToken = some tk)
    (hne : tk ≠ "") (token : Option String) :
    tokenMatches r token = true ↔ token = some tk := by
  cases token with
  | none => simp [tokenMatches]
  | some t =>
    simp only [tokenMatches, h, Bool.and_eq_true, Bool.not_eq_true', beq_eq_false_iff_ne,
      ne_eq, Option.some.injEq, beq_iff_eq]
    constructor
    · rintro ⟨_, rfl⟩; rfl
    · rintro rfl; exact ⟨hne, rfl⟩

/-! ## Claim C1 -/

/-- C1: the claim says the Nth (limit-reaching) authorized download is still
served with the full file content, the blob and record being deleted only
after the response payload is prepared.  The code deletes the blob inside
`check_view_limit_and_delete` BEFORE `send_file(filepath)` runs, so
`send_file` raises `FileNotFoundError` and the admitted caller receives a
500 with no content (the code's own comment, "we can still serve this last
download", states the claimed intent).  Concretely: one record with
`viewLimit = 1`, `viewCount = 0`, one blob, one authorized download — the
response is `internalError`, not the file, and both stores are empty
afterwards. -/
theorem C1_final_download_not_served :
    download_file "photo_1.jpg" none none 7
      { blobs := [("photo_1.jpg", "DATA")],
        records := [{ filename := "photo_1.jpg", viewLimit := some 1 }] } =
      (.internalError, { blobs := [], records := [] }) ∧
    Resp.internalError ≠ Resp.ok "DATA" := by
  exact ⟨by decide, by decide⟩

/-! ## Claim C2 -/

/-- C2 counterexample: the claim says an admin requester downloads a hidden
file without a token.  `download_file` (app.py 272-325) never reads the
admin key — there is no admin input to the route at all — so every
requester, admin included, gets `Forbidden` without the matching token:
the very request the claim says is admitted is rejected. -/
theorem C2_admin_without_token_forbidden :
    download_file "secret_1.txt" none none 0
      { blobs := [("secret_1.txt", "S")],
        records := [{ filename := "secret_1.txt", isHidden := true,
                      hiddenToken := some "tok" }] } =
      (.forbidden "Invalid or missing access token",
       { blobs := [("secret_1.txt", "S")],
         records := [{ filename := "secret_1.txt", isHidden := true,
                       hiddenToken := some "tok" }] }) := by decide

/-- C2 (amended): for a hidden record the token gate applies to every
requester — admin status is never consulted: the download is rejected with
`Forbidden` exactly when the supplied token differs from the record's
`hiddenToken` (missing token included), with no state change; a matching
token passes the gate (the response is never the token `Forbidden`),
subject to the remaining password check. -/
theorem C2_token_gate_for_all_requesters :
    ∀ (s : ServerState) (fn : String) (r : FileRecord) (tk c : String)
      (token pw : Option String) (now : Nat),
      findRecord s fn = some r → findBlob s fn = some c →
      r.isHidden = true → r.hiddenToken = some tk → tk ≠ "" →
      (((download_file fn token pw now s).1 = .forbidden "Invalid or missing access token"
          ↔ token ≠ some tk) ∧
       (token ≠ some tk → (download_file fn token pw now s).2 = s)) := by
  intro s fn r tk c token pw now hrec hblob hhid htok hne
  have hmatch := tokenMatches_iff htok hne token
  by_cases ht : token = some tk
  · subst ht
    have htm : tokenMatches r (some tk) = true := hmatch.mpr rfl
    refine ⟨?_, fun hcon => absurd rfl hcon⟩
    cases hpw : passwordCheck r pw <;>
      simp [download_file, hrec, hblob, hhid, htm, hpw]
    split <;> simp
  · have htm : tokenMatches r token = false := by
      cases hm : tokenMatches r token
      · rfl
      · exact absurd (hmatch.mp hm) ht
    refine ⟨?_, fun _ => ?_⟩
    · simp [download_file, hrec, hblob, hhid, htm, ht]
    · simp [download_file, hrec, hblob, hhid, htm]

/-! ## Claim C3 -/

/-- C3 counterexample: `set_view_limit` indeed accepts `viewLimit = 0`
(its validation only rejects negatives), but `check_view_limit_and_delete`
tests `if file_record.view_limit and ...`, and `0` is falsy in Python: an
authorized download takes `viewCount` to `1 ≥ 0 = viewLimit`, yet the
record and the blob both survive the request, contradicting the claim for
`viewLimit = 0`. -/
theorem C3_zero_view_limit_not_deleted :
    (set_view_limit "f_1.txt" (some 0)
        { blobs := [("f_1.txt", "D")], records := [{ filename := "f_1.txt" }] }).1 =
      .ok "View limit updated" ∧
    download_file "f_1.txt" none none 3
      { blobs := [("f_1.txt", "D")], records := [{ filename := "f_1.txt", viewLimit := some 0 }] } =
      (.ok "D",
       { blobs := [("f_1.txt", "D")],
         records := [{ filename := "f_1.txt", viewLimit := some 0,
                       viewCount := 1, lastAccessed := some 3 }] }) := by
  exact ⟨by decide, by decide⟩

/-- C3 (amended): for every record whose `viewLimit` is a POSITIVE integer,
whenever an authorized download makes `viewCount` reach or exceed
`viewLimit`, the record and its blob are deleted as part of that same
request — afterwards neither lookup finds them.  (`set_view_limit` does
accept `0`, but a record with `viewLimit = 0` is treated as unlimited by
the falsy truthiness test, so no deletion ever fires for it.) -/
theorem C3_positive_view_limit_deletes :
    ∀ (s : ServerState) (fn : String) (r : FileRecord) (l : Nat) (c : String)
      (token pw : Option String) (now : Nat),
      (s.records.map FileRecord.filename).Nodup →
      findRecord s fn = some r → findBlob s fn = some c →
      r.viewLimit = some l → 1 ≤ l → l ≤ r.viewCount + 1 →
      (r.isHidden = true → tokenMatches r token = true) →
      passwordCheck r pw = .pass →
      findRecord (download_file fn token pw now s).2 fn = none ∧
      findBlob (download_file fn token pw now s).2 fn = none := by
  intro s fn r l c token pw now hnd hrec hblob hlim hpos hreach hhid hpw
  have hname : r.filename = fn := findRecord_filename hrec
  have hgate : (r.isHidden && !(tokenMatches r token)) = false := by
    cases hh : r.isHidden
    · rfl
    · simp [hhid hh]
  have hreach' : (!(l == 0) && decide (l ≤ r.viewCount + 1)) = true := by
    simp only [Bool.and_eq_true, Bool.not_eq_true', beq_eq_false_iff_ne, ne_eq,
      decide_eq_true_eq]
    exact ⟨by omega, hreach⟩
  simp only [download_file, hrec, hblob, hgate, Bool.false_eq_true, if_false, hpw,
    check_view_limit_and_delete, hlim, hreach', if_true]
  constructor
  · simp only [findRecord, hname]
    exact removeFirstRec_find?_none (nodup_updateFirstRec_names (fun x _ => rfl) hnd)
  · simp only [findBlob]
    rw [hname, removeBlobL_find?_none]
    rfl

/-! ## Claim C4 -/

/-- C4 counterexample: the claim says a listing WITHOUT `hidden=true`
contains no hidden entries for ANY caller, admin included.  The skip
condition at app.py 176 is `is_hidden and not is_admin and not show_hidden`:
an admin caller with `showHidden = false` still receives the hidden record
(token included). -/
theorem C4_admin_sees_hidden_without_flag :
    get_files false true
      { blobs := [("secret_1.txt", "S")],
        records := [{ filename := "secret_1.txt", isHidden := true,
                      hiddenToken := some "tok" }] } =
      .entries [{ name := "secret_1.txt", originalName := "secret_1.txt", size := 1,
                  isHidden := true, hiddenToken := some "tok",
                  isPasswordProtected := false, viewCount := 0, viewLimit := none,
                  lastAccessed := none }] := by decide

/-- C4 (amended): a NON-ADMIN caller without `hidden=true` never receives an
entry whose record is hidden (every returned entry has `isHidden = false`),
while an admin caller receives hidden entries even without `hidden=true`;
and `hidden=true` from a non-admin caller is rejected with `Forbidden`,
never silently filtered. -/
theorem C4_listing_visibility :
    (∀ (s : ServerState) (l : List ListingEntry) (e : ListingEntry),
        get_files false false s = .entries l → e ∈ l → e.isHidden = false) ∧
    (∀ s : ServerState, get_files true false s = .forbidden) := by
  constructor
  · intro s l e hl he
    simp only [get_files, Bool.and_false, Bool.false_and, Bool.not_false, if_neg,
      Bool.false_eq_true, not_false_iff, ListResult.entries.injEq] at hl
    subst hl
    obtain ⟨b, _, hb⟩ := List.mem_filterMap.mp he
    simp only [entryFor] at hb
    by_cases hg : b.1 == ".gitkeep"
    · simp [hg] at hb
    · simp only [hg, Bool.false_eq_true, if_false] at hb
      cases hfr : findRecord s b.1 with
      | none => simp [hfr, baseEntry] at hb; simp [← hb, baseEntry]
      | some r =>
        simp only [hfr, Bool.not_false, Bool.and_true] at hb
        cases hh : r.isHidden
        · simp only [hh, Bool.false_and, Bool.false_eq_true, if_false,
            Option.some.injEq] at hb
          simp [← hb]
        · simp [hh] at hb
  · intro s
    simp [get_files]

/-! ## Claim C5 -/

/-- C5: the claim says `GET /h/:token` redirects to the download URL for a
matching hidden record and returns `NotFound` otherwise.  In the code,
`redirect` is missing from the `flask` import list (app.py line 9), so the
redirect line raises `NameError`; and the `abort(404)` of the no-match
branch raises an `HTTPException` (an `Exception`) inside the route's
`try`, so both are converted by `except Exception` into `abort(500)`:
every request to `/h/<token>` answers 500 — a matching token is not
redirected and an unknown token is not a 404. -/
theorem C5_hidden_link_always_500 :
    hidden_file_access "tok"
      { blobs := [("secret_1.txt", "S")],
        records := [{ filename := "secret_1.txt", isHidden := true,
                      hiddenToken := some "tok" }] } =
      (.internalError,
       { blobs := [("secret_1.txt", "S")],
         records := [{ filename := "secret_1.txt", isHidden := true,
                       hiddenToken := some "tok" }] }) ∧
    hidden_file_access "unknown"
      { blobs := [("secret_1.txt", "S")],
        records := [{ filename := "secret_1.txt", isHidden := true,
                      hiddenToken := some "tok" }] } =
      (.internalError,
       { blobs := [("secret_1.txt", "S")],
         records := [{ filename := "secret_1.txt", isHidden := true,
                       hiddenToken := some "tok" }] }) ∧
    (∀ u : String, Resp.internalError ≠ Resp.redirectTo u) ∧
    Resp.internalError ≠ Resp.notFound := by
  refine ⟨by decide, by decide, fun u => by simp, by decide⟩

/-! ## Claim C6 -/

theorem stateInv_check_view_limit {r : FileRecord} {s : ServerState}
    (hs : stateInv s) : stateInv (check_view_limit_and_delete r s).2 := by
  intro x hx
  simp only [check_view_limit_and_delete] at hx
  rcases hvl : r.viewLimit with _ | l
  · simp only [hvl] at hx
    exact hs x hx
  · simp only [hvl] at hx
    by_cases hc : (!(l == 0) && decide (l ≤ r.viewCount)) = true
    · simp only [if_pos hc] at hx
      exact hs x (mem_removeFirstRec hx)
    · simp only [if_neg hc] at hx
      exact hs x hx

/-- C6: every operation of the claim — upload, toggle-hidden, set-password,
set-view-limit, reset-views and download — preserves the record invariant
`isHidden ↔ hiddenToken present` and
`isPasswordProtected ↔ passwordHash present` for every record of the
state, so the two equivalences hold at every point observable between
operations. -/
theorem C6_record_invariant_preserved :
    ∀ (op : Op) (s : ServerState), stateInv s → stateInv (applyOp op s) := by
  intro op s hs
  cases op with
  | upload files h vls pw ts tok =>
    have main : ∀ (l : List (String × String)) (i : Nat) (st : ServerState),
        stateInv st → stateInv (uploadLoop h vls pw ts tok l i st).2 := by
      intro l
      induction l with
      | nil => intro i st h'; exact h'
      | cons fc rest ih =>
        intro i st h'
        simp only [uploadLoop]
        split
        · apply ih
          intro x hx
          rcases List.mem_append.mp hx with hx' | hx'
          · exact h' x hx'
          · rw [List.mem_singleton.mp hx']
            exact recInv_newUploadRecord _ _ _ _ _
        · exact ih _ _ h'
    simp only [applyOp, upload_files]
    split
    · exact hs
    · split
      · exact main files 0 s hs
      · exact main files 0 s hs
  | toggleHidden fn tk =>
    simp only [applyOp, toggle_file_hidden]
    cases hrec : findRecord s fn with
    | some r =>
      intro x hx
      exact inv_updateFirstRec hs
        (fun b _ _ => recInv_toggledRec (hs r (findRecord_mem hrec)) tk) x hx
    | none =>
      cases hblob : findBlob s fn with
      | none => exact hs
      | some cont =>
        intro x hx
        rcases List.mem_append.mp hx with hx' | hx'
        · exact hs x hx'
        · rw [List.mem_singleton.mp hx']
          exact recInv_toggledRec (recInv_defaultRecord fn) tk
  | setPassword fn pw =>
    simp only [applyOp, set_file_password]
    cases pw with
    | none => exact hs
    | some p0 =>
      cases hrec : findRecord s fn with
      | some r =>
        intro x hx
        exact inv_updateFirstRec hs
          (fun b _ hb => recInv_withPassword hb (pyStrip p0)) x hx
      | none =>
        cases hblob : findBlob s fn with
        | none => exact hs
        | some cont =>
          intro x hx
          rcases List.mem_append.mp hx with hx' | hx'
          · exact hs x hx'
          · rw [List.mem_singleton.mp hx']
            exact recInv_withPassword (recInv_defaultRecord fn) (pyStrip p0)
  | setViewLimit fn vl =>
    simp only [applyOp, set_view_limit]
    split
    · exact hs
    · cases hrec : findRecord s fn with
      | some r =>
        intro x hx
        exact inv_updateFirstRec hs (fun b _ hb => recInv_setViewLimit hb _) x hx
      | none =>
        cases hblob : findBlob s fn with
        | none => exact hs
        | some cont =>
          intro x hx
          rcases List.mem_append.mp hx with hx' | hx'
          · exact hs x hx'
          · rw [List.mem_singleton.mp hx']
            exact recInv_setViewLimit (recInv_defaultRecord fn) _
  | resetViews fn =>
    simp only [applyOp, reset_view_count]
    cases hrec : findRecord s fn with
    | none => exact hs
    | some r =>
      intro x hx
      exact inv_updateFirstRec hs (fun b _ hb => recInv_setViewCount hb 0) x hx
  | download fn token pw now =>
    simp only [applyOp]
    cases hblob : findBlob s fn with
    | none => simp only [download_file, hblob]; exact hs
    | some cont =>
      cases hrec : findRecord s fn with
      | none => simp only [download_file, hblob, hrec]; exact hs
      | some r =>
        by_cases hgate : (r.isHidden && !(tokenMatches r token)) = true
        · simp only [download_file, hblob, hrec, hgate, if_true]
          exact hs
        · have hgate' : (r.isHidden && !(tokenMatches r token)) = false := by
            simpa using hgate
          have hrinv : recInv { r with viewCount := r.viewCount + 1, lastAccessed := some now } :=
            recInv_touch (hs r (findRecord_mem hrec)) _ _
          have h1 : ∀ x ∈ updateFirstRec s.records fn
              (fun _ => { r with viewCount := r.viewCount + 1, lastAccessed := some now }),
              recInv x :=
            inv_updateFirstRec hs (fun b _ _ => hrinv)
          cases hpw : passwordCheck r pw
          · simp only [download_file, hblob, hrec, hgate', Bool.false_eq_true, if_false, hpw]
            split
            · exact stateInv_check_view_limit h1
            · exact stateInv_check_view_limit h1
          · simp only [download_file, hblob, hrec, hgate', Bool.false_eq_true, if_false, hpw]
            exact hs
          · simp only [download_file, hblob, hrec, hgate', Bool.false_eq_true, if_false, hpw]
            exact hs
          · simp only [download_file, hblob, hrec, hgate', Bool.false_eq_true, if_false, hpw]
            exact hs

/-- C6 witness: a concrete operation applied to a concrete invariant-holding
state keeps the invariant. -/
theorem C6_record_invariant_witness :
    stateInv (applyOp (Op.toggleHidden "f_1.txt" "freshtok")
      { blobs := [("f_1.txt", "D")], records := [{ filename := "f_1.txt" }] }) :=
  C6_record_invariant_preserved (Op.toggleHidden "f_1.txt" "freshtok")
    { blobs := [("f_1.txt", "D")], records := [{ filename := "f_1.txt" }] }
    (by intro r hr; rw [List.mem_singleton.mp hr]; exact ⟨by simp, by simp⟩)

/-! ## Claim C7 -/

/-- C7: every denied download mutates nothing.  The three denial causes —
missing blob, hidden record with a missing or wrong token, password
protection with a missing or wrong password — each return their response
with the state unchanged: no counter bump, no record created or deleted,
no blob touched.  (The missing-blob denial surfaces as a 500 rather than
a 404 because the route's own `except Exception` swallows `abort(404)`,
but it is equally free of side effects.) -/
theorem C7_denied_downloads_mutate_nothing :
    ∀ (fn : String) (token pw : Option String) (now : Nat) (s : ServerState),
      (findBlob s fn = none → download_file fn token pw now s = (.internalError, s)) ∧
      (∀ r c, findRecord s fn = some r → findBlob s fn = some c →
          r.isHidden = true → tokenMatches r token = false →
          download_file fn token pw now s =
            (.forbidden "Invalid or missing access token", s)) ∧
      (∀ r c, findRecord s fn = some r → findBlob s fn = some c →
          (r.isHidden = true → tokenMatches r token = true) →
          passwordCheck r pw = .required →
          download_file fn token pw now s = (.unauthorized "Password required", s)) ∧
      (∀ r c, findRecord s fn = some r → findBlob s fn = some c →
          (r.isHidden = true → tokenMatches r token = true) →
          passwordCheck r pw = .invalid →
          download_file fn token pw now s = (.unauthorized "Invalid password", s)) := by
  intro fn token pw now s
  refine ⟨?_, ?_, ?_, ?_⟩
  · intro hb
    simp [download_file, hb]
  · intro r c hr hb hh htm
    simp [download_file, hr, hb, hh, htm]
  · intro r c hr hb hgate hpw
    have hg : (r.isHidden && !(tokenMatches r token)) = false := by
      cases hh : r.isHidden
      · rfl
      · simp [hgate hh]
    simp [download_file, hr, hb, hg, hpw]
  · intro r c hr hb hgate hpw
    have hg : (r.isHidden && !(tokenMatches r token)) = false := by
      cases hh : r.isHidden
      · rfl
      · simp [hgate hh]
    simp [download_file, hr, hb, hg, hpw]

/-- C7 witness: a wrong password against a protected record is denied with
`Unauthorized` and the state is returned untouched. -/
theorem C7_denied_downloads_witness :
    download_file "doc_1.pdf" none (some "wrong") 0
      { blobs := [("doc_1.pdf", "P")],
        records := [{ filename := "doc_1.pdf",
                      passwordHash := some (generate_password_hash "pw"),
                      isPasswordProtected := true }] } =
      (.unauthorized "Invalid password",
       { blobs := [("doc_1.pdf", "P")],
         records := [{ filename := "doc_1.pdf",
                       passwordHash := some (generate_password_hash "pw"),
                       isPasswordProtected := true }] }) :=
  (C7_denied_downloads_mutate_nothing "doc_1.pdf" none (some "wrong") 0
      { blobs := [("doc_1.pdf", "P")],
        records := [{ filename := "doc_1.pdf",
                      passwordHash := some (generate_password_hash "pw"),
                      isPasswordProtected := true }] }).2.2.2
    { filename := "doc_1.pdf", passwordHash := some (generate_password_hash "pw"),
      isPasswordProtected := true }
    "P" rfl rfl (by decide) (by decide)

/-! ## Claim C8 -/

theorem entryFor_nonadmin_token_none {s : ServerState} {b : String × String}
    {sh : Bool} {e : ListingEntry} (h : entryFor s b false sh = some e) :
    e.hiddenToken = none := by
  simp only [entryFor] at h
  by_cases hg : b.1 == ".gitkeep"
  · simp [hg] at h
  · simp only [hg, Bool.false_eq_true, if_false] at h
    cases hfr : findRecord s b.1 with
    | none =>
      simp only [hfr] at h
      cases h
      rfl
    | some r =>
      simp only [hfr] at h
      split at h
      · cases h
      · cases h
        rfl

/-- C8: non-admin listings never expose a stored hidden token: every entry
of a non-admin listing has a null (or absent) `hiddenToken` field, and —
as a noninterference statement — two states that agree after erasing
every stored `hiddenToken` produce identical non-admin listing
responses. -/
theorem C8_hidden_tokens_not_leaked :
    (∀ (sh : Bool) (s : ServerState) (l : List ListingEntry) (e : ListingEntry),
        get_files sh false s = .entries l → e ∈ l → e.hiddenToken = none) ∧
    (∀ (sh : Bool) (s t : ServerState), scrubTokens s = scrubTokens t →
        get_files sh false s = get_files sh false t) := by
  constructor
  · intro sh s l e hl he
    cases sh with
    | true => simp [get_files] at hl
    | false =>
      simp only [get_files, Bool.and_false, Bool.false_and, Bool.not_false,
        Bool.false_eq_true, if_false, ListResult.entries.injEq] at hl
      subst hl
      obtain ⟨b, _, hb⟩ := List.mem_filterMap.mp he
      exact entryFor_nonadmin_token_none hb
  · intro sh s t h
    calc get_files sh false s
        = get_files sh false (scrubTokens s) := (get_files_scrubTokens sh s).symm
      _ = get_files sh false (scrubTokens t) := by rw [h]
      _ = get_files sh false t := get_files_scrubTokens sh t

/-- C8 witness: two states that differ only in the stored token value give
the same non-admin listing. -/
theorem C8_hidden_tokens_witness :
    get_files false false
      { blobs := [("a_1.txt", "D")],
        records := [{ filename := "a_1.txt", isHidden := true, hiddenToken := some "aa" }] } =
    get_files false false
      { blobs := [("a_1.txt", "D")],
        records := [{ filename := "a_1.txt", isHidden := true, hiddenToken := some "bb" }] } :=
  C8_hidden_tokens_not_leaked.2 false
    { blobs := [("a_1.txt", "D")],
      records := [{ filename := "a_1.txt", isHidden := true, hiddenToken := some "aa" }] }
    { blobs := [("a_1.txt", "D")],
      records := [{ filename := "a_1.txt", isHidden := true, hiddenToken := some "bb" }] }
    (by decide)

/-! ## Claim C9 -/

/-- C9: the first half of the claim holds — different timestamps give
different stored names — but the recovery half fails in the code:
`displayNameFromStored (deriveStoredName "photo.jpg" 123)` returns
`"photo_123.jpg"`, not `"photo.jpg"`, because the guard
`parts[1].replace('.', '').isdigit()` is false whenever the extension
contains a letter (`"123.jpg"` becomes `"123jpg"`), so the `_<timestamp>`
segment is never stripped for any allowed extension, although the code's
own comment ("Remove timestamp from display name") states the claimed
intent. -/
theorem C9_display_name_not_recovered :
    deriveStoredName "photo.jpg" 111 ≠ deriveStoredName "photo.jpg" 222 ∧
    deriveStoredName "photo.jpg" 123 = "photo_123.jpg" ∧
    displayNameFromStored "photo_123.jpg" = "photo_123.jpg" ∧
    "photo_123.jpg" ≠ "photo.jpg" :=
  ⟨by decide, by decide, by decide, by decide⟩

/-! ## Claim C10 -/

/-- C10 counterexample: a request whose only file has an empty filename is a
request in which every file fails the upload check (an empty name has no
dot), yet the response message is `No files selected` — the dedicated
empty-selection guard at app.py 197-198 fires before the per-file filter —
not the claimed `No valid files uploaded`. -/
theorem C10_empty_names_different_message :
    upload_files [("", "x")] false none none (fun _ => 0) (fun _ => "t")
      { blobs := [], records := [] } =
      (.badRequest "No files selected", { blobs := [], records := [] }) ∧
    allowed_file "" = false ∧
    Resp.badRequest "No files selected" ≠ Resp.badRequest "No valid files uploaded" :=
  ⟨by decide, by decide, by decide⟩

/-- C10 (amended): upload stores a file only if its name is nonempty,
contains a dot and has an allowed (lowercased) extension; a failing file
is silently skipped by the loop — no blob write, no record; and when every
file of the request fails the check the request is rejected with
`BadRequest` and no state change, with message `No files selected` when
every file name is empty and `No valid files uploaded` otherwise. -/
theorem C10_upload_extension_filter :
    ∀ (isHidden : Bool) (vls pw : Option String) (ts : Nat → Nat) (tok : Nat → String)
      (g : String × String) (rest : List (String × String)) (i : Nat) (st : ServerState)
      (files : List (String × String)) (s : ServerState),
      (¬(g.1 ≠ "" ∧ allowed_file g.1 = true) →
        uploadLoop isHidden vls pw ts tok (g :: rest) i st =
          uploadLoop isHidden vls pw ts tok rest i st) ∧
      ((∀ f ∈ files, ¬(f.1 ≠ "" ∧ allowed_file f.1 = true)) →
        ((upload_files files isHidden vls pw ts tok s).2 = s ∧
         (upload_files files isHidden vls pw ts tok s).1 =
           (if files.isEmpty || files.all (fun f => f.1 == "") then
              Resp.badRequest "No files selected"
            else Resp.badRequest "No valid files uploaded"))) := by
  intro isHidden vls pw ts tok g rest i st files s
  have skipcond : ∀ f : String × String, ¬(f.1 ≠ "" ∧ allowed_file f.1 = true) →
      (!(f.1 == "") && allowed_file f.1) = false := by
    intro f hf
    by_cases h1 : f.1 = ""
    · simp [h1]
    · have h2 : allowed_file f.1 = false := by
        cases hal : allowed_file f.1
        · rfl
        · exact absurd ⟨h1, hal⟩ hf
      simp [h2]
  constructor
  · intro hg
    simp only [uploadLoop, skipcond g hg, Bool.false_eq_true, if_false]
  · intro hall
    have loopnil : ∀ (l : List (String × String)),
        (∀ f ∈ l, ¬(f.1 ≠ "" ∧ allowed_file f.1 = true)) →
        ∀ (j : Nat) (u : ServerState), uploadLoop isHidden vls pw ts tok l j u = ([], u) := by
      intro l
      induction l with
      | nil => intro _ j u; rfl
      | cons f0 rest0 ih =>
        intro hl j u
        simp only [uploadLoop, skipcond f0 (hl f0 (List.mem_cons_self f0 rest0)),
          Bool.false_eq_true, if_false]
        exact ih (fun f hf => hl f (List.mem_cons_of_mem f0 hf)) j u
    by_cases hempty : (files.isEmpty || files.all (fun f => f.1 == "")) = true
    · constructor
      · simp [upload_files, hempty]
      · simp [upload_files, hempty]
    · have hempty' : (files.isEmpty || files.all (fun f => f.1 == "")) = false := by
        simpa using hempty
      constructor
      · simp [upload_files, hempty', loopnil files hall 0 s]
      · simp [upload_files, hempty', loopnil files hall 0 s]

/-- C10 witness: a single disallowed extension is skipped by the loop, and
the whole request is rejected with `No valid files uploaded` leaving the
state unchanged. -/
theorem C10_upload_extension_witness :
    uploadLoop false none none (fun _ => 0) (fun _ => "t") [("bad.exe", "x")] 0
        { blobs := [], records := [] } =
      uploadLoop false none none (fun _ => 0) (fun _ => "t") [] 0
        { blobs := [], records := [] } ∧
    (upload_files [("bad.exe", "x")] false none none (fun _ => 0) (fun _ => "t")
        { blobs := [], records := [] }).2 = { blobs := [], records := [] } ∧
    (upload_files [("bad.exe", "x")] false none none (fun _ => 0) (fun _ => "t")
        { blobs := [], records := [] }).1 =
      (if ([("bad.exe", "x")] : List (String × String)).isEmpty ||
          ([("bad.exe", "x")] : List (String × String)).all (fun f => f.1 == "") then
         Resp.badRequest "No files selected"
       else Resp.badRequest "No valid files uploaded") := by
  refine ⟨?_, ?_⟩
  · exact (C10_upload_extension_filter false none none (fun _ => 0) (fun _ => "t")
      ("bad.exe", "x") [] 0 { blobs := [], records := [] } [] { blobs := [], records := [] }).1
      (by decide)
  · exact (C10_upload_extension_filter false none none (fun _ => 0) (fun _ => "t")
      ("bad.exe", "x") [] 0 { blobs := [], records := [] } [("bad.exe", "x")]
      { blobs := [], records := [] }).2
      (by decide)

/-- C2 witness: a concrete wrong-token request against a hidden record is
`Forbidden` and leaves the state unchanged. -/
theorem C2_token_gate_witness :
    ((download_file "secret_1.txt" (some "bad") none 0
        { blobs := [("secret_1.txt", "S")],
          records := [{ filename := "secret_1.txt", isHidden := true,
                        hiddenToken := some "tok" }] }).1 =
      .forbidden "Invalid or missing access token" ↔ some "bad" ≠ some "tok") ∧
    (download_file "secret_1.txt" (some "bad") none 0
        { blobs := [("secret_1.txt", "S")],
          records := [{ filename := "secret_1.txt", isHidden := true,
                        hiddenToken := some "tok" }] }).2 =
      { blobs := [("secret_1.txt", "S")],
        records := [{ filename := "secret_1.txt", isHidden := true,
                      hiddenToken := some "tok" }] } := by
  have h := C2_token_gate_for_all_requesters
    { blobs := [("secret_1.txt", "S")],
      records := [{ filename := "secret_1.txt", isHidden := true,
                    hiddenToken := some "tok" }] }
    "secret_1.txt"
    { filename := "secret_1.txt", isHidden := true, hiddenToken := some "tok" }
    "tok" "S" (some "bad") none 0 rfl rfl rfl rfl (by decide)
  exact ⟨h.1, h.2 (by decide)⟩

/-- C3 witness: a record with `viewLimit = 1` is deleted, blob included, by
the download that reaches the limit. -/
theorem C3_positive_view_limit_witness :
    findRecord (download_file "f_1.txt" none none 9
      { blobs := [("f_1.txt", "D")],
        records := [{ filename := "f_1.txt", viewLimit := some 1 }] }).2 "f_1.txt" = none ∧
    findBlob (download_file "f_1.txt" none none 9
      { blobs := [("f_1.txt", "D")],
        records := [{ filename := "f_1.txt", viewLimit := some 1 }] }).2 "f_1.txt" = none :=
  C3_positive_view_limit_deletes
    { blobs := [("f_1.txt", "D")],
      records := [{ filename := "f_1.txt", viewLimit := some 1 }] }
    "f_1.txt" { filename := "f_1.txt", viewLimit := some 1 } 1 "D" none none 9
    (by decide) rfl rfl rfl (by decide) (by decide) (by decide) (by decide)

/-- C4 witness: a public file is listed with `isHidden = false` for a
non-admin caller, and a non-admin `hidden=true` request is `Forbidden`. -/
theorem C4_listing_visibility_witness :
    ({ name := "a_1.txt", originalName := "a_1.txt", size := 1, isHidden := false,
       hiddenToken := none, isPasswordProtected := false, viewCount := 0,
       viewLimit := none, lastAccessed := none } : ListingEntry).isHidden = false ∧
    get_files true false { blobs := [("a_1.txt", "D")], records := [] } = .forbidden := by
  constructor
  · exact C4_listing_visibility.1 { blobs := [("a_1.txt", "D")], records := [] }
      [{ name := "a_1.txt", originalName := "a_1.txt", size := 1, isHidden := false,
         hiddenToken := none, isPasswordProtected := false, viewCount := 0,
         viewLimit := none, lastAccessed := none }]
      { name := "a_1.txt", originalName := "a_1.txt", size := 1, isHidden := false,
        hiddenToken := none, isPasswordProtected := false, viewCount := 0,
        viewLimit := none, lastAccessed := none }
      (by decide) (List.mem_singleton.mpr rfl)
  · exact C4_listing_visibility.2 { blobs := [("a_1.txt", "D")], records := [] }
